import Mathlib

/-!
Verification of the stock screening/scoring pipeline (selectStocks.py, api.py, utils.py).

Shallow embedding conventions:
- Python floats are modelled by exact rationals (ℚ); IEEE rounding is abstracted away.
- Pandas NaN cells are modelled by `Option ℚ` (`none` = NaN); comparisons against NaN
  are `false`, matching pandas/Python semantics.
- Upstream network calls are modelled as `Except Unit` valued inputs: `.error ()` is a
  raised exception, `.ok v` a response.  An uncaught Python exception in embedded code
  is an `.error ()` result; functions that can never raise are total Lean functions.
- `numpy.sqrt` (used only by the Bollinger standard deviation) is an abstract
  parameter `sqrtFn : ℚ → ℚ`; no claim depends on its value.
-/

set_option maxRecDepth 4000

/-! ### utils.py: parse_number  (claims C3)

`parse_number` strips whitespace, removes commas, then:
percent suffix → value/100; a 万/亿 suffix is textually replaced by `*1e4` / `*1e8`
and the result passed to `eval`; otherwise `float(s)`.  Any failure gives `0.0`.
All the string patterns replaced are single characters, so replacement is modelled
on `List Char`.  `eval` is modelled on the product grammar `float ('*' float)*`,
which covers everything the 万/亿 replacement can produce from numeric text.
Python float literals with underscores and the inf/nan words are outside the model. -/

/-- The inputs `parse_number` receives: `None`, a number, or a string. -/
inductive PyVal where
  | pynone
  | num (q : ℚ)
  | str (s : String)

def trimChars (cs : List Char) : List Char :=
  ((cs.dropWhile (fun c => c.isWhitespace)).reverse.dropWhile (fun c => c.isWhitespace)).reverse

def removeChar (c : Char) (cs : List Char) : List Char :=
  cs.filter (fun x => x != c)

/-- Replace every occurrence of the single character `c` by the string `rep`. -/
def replaceChar (c : Char) (rep : List Char) (cs : List Char) : List Char :=
  cs.foldr (fun x acc => (if x == c then rep else [x]) ++ acc) []

def splitOnChar (c : Char) (cs : List Char) : List (List Char) :=
  cs.foldr (fun x acc =>
    match acc with
    | [] => if x == c then [[], []] else [[x]]
    | a :: as => if x == c then [] :: a :: as else (x :: a) :: as) [[]]

def digitsVal (cs : List Char) : Nat :=
  cs.foldl (fun a c => a * 10 + (c.toNat - 48)) 0

def parseNatDigits? (cs : List Char) : Option Nat :=
  if cs.isEmpty || !cs.all (fun c => c.isDigit) then none
  else some (digitsVal cs)

/-- Decimal mantissa: `digits`, `digits.digits`, `digits.`, `.digits`. -/
def parseMantissa? (cs : List Char) : Option ℚ :=
  match splitOnChar '.' cs with
  | [whole] => (parseNatDigits? whole).map (fun n => (n : ℚ))
  | [whole, frac] =>
    if whole.isEmpty && frac.isEmpty then none
    else if whole.all (fun c => c.isDigit) && frac.all (fun c => c.isDigit) then
      some ((digitsVal whole : ℚ) + (digitsVal frac : ℚ) / (10 ^ frac.length))
    else none
  | _ => none

def parseExp? (cs : List Char) : Option Int :=
  match cs with
  | '+' :: r => (parseNatDigits? r).map (fun n => (n : Int))
  | '-' :: r => (parseNatDigits? r).map (fun n => -(n : Int))
  | _ => (parseNatDigits? cs).map (fun n => (n : Int))

def qpow10 (e : Int) : ℚ :=
  if 0 ≤ e then ((10 : ℚ) ^ e.toNat) else 1 / ((10 : ℚ) ^ (-e).toNat)

/-- The decimal-literal fragment of Python `float(s)` (case-insensitive exponent). -/
def parseFloat? (cs0 : List Char) : Option ℚ :=
  let core : List Char → Option ℚ := fun body =>
    match splitOnChar 'e' body with
    | [mant] => parseMantissa? mant
    | [mant, ex] =>
      match parseMantissa? mant, parseExp? ex with
      | some m, some e => some (m * qpow10 e)
      | _, _ => none
    | _ => none
  match cs0.map (fun c => c.toLower) with
  | '+' :: rest => core rest
  | '-' :: rest => (core rest).map (fun q => -q)
  | cs => core cs

/-- Model of `eval` on the expressions produced by the 万/亿 replacement:
a `*`-separated product of float literals. -/
def evalProduct? (cs : List Char) : Option ℚ :=
  let parts := splitOnChar '*' cs
  if parts.any (fun p => (parseFloat? p).isNone) then none
  else some (parts.foldl (fun acc p => acc * ((parseFloat? p).getD 0)) 1)

/-- utils.py `parse_number`: total, returns `0.0` on anything unparseable. -/
def parse_number (v : PyVal) : ℚ :=
  match v with
  | .pynone => 0
  | .num q => q
  | .str s =>
    let cs := removeChar ',' (trimChars s.toList)
    if cs.getLast? == some '%' then
      match parseFloat? (removeChar '%' cs) with
      | some q => q / 100
      | none => 0
    else if cs.contains '万' || cs.contains '亿' then
      match evalProduct? (replaceChar '亿' "*1e8".toList (replaceChar '万' "*1e4".toList cs)) with
      | some q => q
      | none => 0
    else
      match parseFloat? cs with
      | some q => q
      | none => 0

/-! ### utils.py: is_industry

Python `k in industry` (substring containment) is modelled by a hand-rolled
search over character lists; `if not industry` maps `None` and the empty
string to `False`. -/

def charsStart : List Char → List Char → Bool
  | [], _ => true
  | _ :: _, [] => false
  | a :: as, b :: bs => a == b && charsStart as bs

def subSearch (needle : List Char) : List Char → Bool
  | [] => needle.isEmpty
  | c :: rest => charsStart needle (c :: rest) || subSearch needle rest

def is_industry (industry : Option String) (keywords : List String) : Bool :=
  match industry with
  | none => false
  | some ind => if ind.isEmpty then false else keywords.any (fun k => subSearch k.toList ind.toList)

/-! ### api.py: get_stock_history  (claims C4, C5)

A cached bar is a (date, close) pair; dates are abstract day numbers so that
`cached_end + 1 day` is `+ 1`.  The CSV cache is the `Option (List HistBar)`
input (`none` = no cache file, or an unreadable one, which the source treats
the same way); the akshare call is the `fetch` input, already cleaned the way
the source cleans `df_new` (rename, to_datetime, dropna on close).  The output
records the returned frame, the cache content after the call, and whether an
upstream request was issued. -/

structure HistBar where
  date : Nat
  close : ℚ
deriving DecidableEq

/-- pandas `drop_duplicates(subset=["date"], keep="last")`: keep a row iff no
later row has the same date; relative order of kept rows is preserved. -/
def dedupKeepLast : List HistBar → List HistBar
  | [] => []
  | b :: rest =>
    if rest.any (fun c => c.date == b.date) then dedupKeepLast rest
    else b :: dedupKeepLast rest

/-- pandas `sort_values("date")` (ascending, stable). -/
def sortBars (bs : List HistBar) : List HistBar :=
  List.insertionSort (fun a b => a.date ≤ b.date) bs

/-- Slice to `[start_dt, end_dt]` and sort by date, as done on every return path. -/
def filterRange (bs : List HistBar) (s e : Nat) : List HistBar :=
  sortBars (bs.filter (fun b => decide (s ≤ b.date) && decide (b.date ≤ e)))

def minDate (c : List HistBar) : Nat := ((c.map (fun b => b.date)).min?).getD 0
def maxDate (c : List HistBar) : Nat := ((c.map (fun b => b.date)).max?).getD 0

structure GshOut where
  result : List HistBar
  cacheAfter : Option (List HistBar)
  fetched : Bool
deriving DecidableEq

/-- The fallback used by the source on a fetch exception and on an empty fetch
result: the cached rows filtered to the request range if a nonempty cache was
loaded, else an empty frame. -/
def cachedFallback (cache : Option (List HistBar)) (s e : Nat) : List HistBar :=
  match cache with
  | some c => if c.isEmpty then [] else filterRange c s e
  | none => []

/-- The body of the source's `try` around the akshare call: `fr` is the fetch
outcome (`.error` = exception raised).  `need_full` mirrors `need_full_fetch`:
only a delta fetch merges with the cache, a full fetch replaces it. -/
def afterFetch (cache : Option (List HistBar)) (need_full : Bool) (s e : Nat)
    (fr : Except Unit (List HistBar)) : GshOut :=
  match fr with
  | .error _ => { result := cachedFallback cache s e, cacheAfter := cache, fetched := true }
  | .ok news =>
    if news.isEmpty then
      { result := cachedFallback cache s e, cacheAfter := cache, fetched := true }
    else
      let base : List HistBar :=
        match cache with
        | some c => if ¬ c.isEmpty ∧ need_full = false then c ++ news else news
        | none => news
      let combined := sortBars (dedupKeepLast base)
      { result := filterRange combined s e, cacheAfter := some combined, fetched := true }

/-- api.py `get_stock_history`. -/
def get_stock_history (cache : Option (List HistBar)) (start_date end_date today : Nat)
    (fetch : Nat → Nat → Except Unit (List HistBar)) : GshOut :=
  match cache with
  | none => afterFetch none true start_date end_date (fetch start_date end_date)
  | some c =>
    if c.isEmpty then afterFetch (some c) true start_date end_date (fetch start_date end_date)
    else if minDate c ≤ start_date ∧ maxDate c < today then
      afterFetch (some c) false start_date end_date (fetch (maxDate c + 1) end_date)
    else if minDate c ≤ start_date ∧ today ≤ maxDate c then
      { result := filterRange c start_date end_date, cacheAfter := some c, fetched := false }
    else afterFetch (some c) true start_date end_date (fetch start_date end_date)

/-! ### selectStocks.py: dynamic turnover threshold and total score  (claims C1, C8) -/

/-- selectStocks.py `get_dynamic_turnover_threshold`: 0.15 below 50e8 (inclusive),
0.08 below 200e8 (inclusive), 0.03 above. -/
def get_dynamic_turnover_threshold (free_float_mkt_cap : ℚ) : ℚ :=
  if free_float_mkt_cap ≤ 50 * 10 ^ 8 then 15 / 100
  else if free_float_mkt_cap ≤ 200 * 10 ^ 8 then 8 / 100
  else 3 / 100

/-- Python `round` at integer precision: round half to even. -/
def roundHalfEven (x : ℚ) : Int :=
  if x - ⌊x⌋ < 1 / 2 then ⌊x⌋
  else if 1 / 2 < x - ⌊x⌋ then ⌊x⌋ + 1
  else if ⌊x⌋ % 2 = 0 then ⌊x⌋ else ⌊x⌋ + 1

/-- Python `round(x, 2)`. -/
def round2 (x : ℚ) : ℚ := (roundHalfEven (x * 100) : ℚ) / 100

/-- selectStocks.py `calculate_total_score` with its default weights 0.6/0.4. -/
def calculate_total_score (fundamental_score technical_score : ℚ) : ℚ :=
  round2 (6 / 10 * fundamental_score + 4 / 10 * technical_score)

/-! ### selectStocks.py: calculate_technical_score  (claims C6, C8)

The fetched frame is `Hist`: the close column (after `dropna`) and, when the
成交量 column is present, the volume column.  Pandas NaN is `Option ℚ`:
a rolling window shorter than its size yields `none`, every comparison against
`none` is `false`, and Python `x or d` maps a NaN to NaN and a zero to `d`
(`pyOr`).  `RS = roll_up / roll_down` follows IEEE conventions: positive/0 is
+inf so RSI = 100, 0/0 is NaN.  With exactly one row the source raises
IndexError at `df["MA5"].iloc[-2]`, hence the `.error` branch. -/

instance instDecEqExcept {ε α : Type _} [DecidableEq ε] [DecidableEq α] :
    DecidableEq (Except ε α) := fun a b =>
  match a, b with
  | .error x, .error y =>
    if h : x = y then isTrue (congrArg Except.error h)
    else isFalse (fun hh => h (by cases hh; rfl))
  | .ok x, .ok y =>
    if h : x = y then isTrue (congrArg Except.ok h)
    else isFalse (fun hh => h (by cases hh; rfl))
  | .error _, .ok _ => isFalse (fun hh => Except.noConfusion hh)
  | .ok _, .error _ => isFalse (fun hh => Except.noConfusion hh)

structure Hist where
  closes : List ℚ
  vols? : Option (List ℚ)

def oLt (a b : Option ℚ) : Bool :=
  match a, b with
  | some x, some y => decide (x < y)
  | _, _ => false

def oLe (a b : Option ℚ) : Bool :=
  match a, b with
  | some x, some y => decide (x ≤ y)
  | _, _ => false

/-- Python `v or d` on a possibly-NaN float: NaN stays NaN, zero is replaced. -/
def pyOr (v : Option ℚ) (d : ℚ) : Option ℚ :=
  match v with
  | none => none
  | some q => if q = 0 then some d else some q

/-- Python `v or d` where the default itself is a possibly-NaN float. -/
def pyOrO (v : Option ℚ) (d : Option ℚ) : Option ℚ :=
  match v with
  | none => none
  | some q => if q = 0 then d else some q

/-- Python two-argument `max`: returns `b` if `b > a` else `a` (NaN compares false). -/
def pyMax (a b : Option ℚ) : Option ℚ := if oLt a b then b else a

/-- `Series.ewm(span, adjust=False).mean()` with `a = 2/(span+1)`. -/
def ewmaAux (a : ℚ) (acc : ℚ) : List ℚ → List ℚ
  | [] => []
  | x :: xs => let y := a * x + (1 - a) * acc; y :: ewmaAux a y xs

def ewma (a : ℚ) : List ℚ → List ℚ
  | [] => []
  | x :: xs => x :: ewmaAux a x xs

/-- `Series.rolling(w).f()`: `none` until the window is full or while it
contains a NaN. -/
def rollingApply (w : Nat) (f : List ℚ → ℚ) (xs : List (Option ℚ)) : List (Option ℚ) :=
  (List.range xs.length).map (fun i =>
    if w ≤ i + 1 then
      let win := (xs.drop (i + 1 - w)).take w
      if win.all (fun o => o.isSome) then some (f (win.filterMap id)) else none
    else none)

def rollingMean (w : Nat) (xs : List (Option ℚ)) : List (Option ℚ) :=
  rollingApply w (fun l => l.sum / w) xs

def rollingMin (w : Nat) (xs : List (Option ℚ)) : List (Option ℚ) :=
  rollingApply w (fun l => (l.min?).getD 0) xs

/-- `rolling(w).std()` (ddof = 1); the square root is the abstract `sqrtFn`. -/
def rollingStd (sqrtFn : ℚ → ℚ) (w : Nat) (xs : List (Option ℚ)) : List (Option ℚ) :=
  rollingApply w (fun l =>
    let m := l.sum / w
    sqrtFn ((l.map (fun x => (x - m) ^ 2)).sum / ((w : ℚ) - 1))) xs

/-- `Series.diff()`: NaN at index 0. -/
def diffO (xs : List ℚ) : List (Option ℚ) :=
  (List.range xs.length).map (fun i =>
    match i with
    | 0 => none
    | Nat.succ j => some (xs.getD i 0 - xs.getD j 0))

/-- `.iloc[-n:]`. -/
def takeLast (n : Nat) (xs : List α) : List α := xs.drop (xs.length - n)

def lastO (xs : List (Option ℚ)) : Option ℚ := xs.getLastD none

/-- `100 - 100/(1 + roll_up/roll_down)` with IEEE division: `d = 0, u > 0`
gives RS = +inf hence RSI = 100; `0/0` is NaN. -/
def rsiAt (u d : Option ℚ) : Option ℚ :=
  match u, d with
  | some u, some d =>
    if d = 0 then (if u = 0 then none else some 100)
    else some (100 - 100 / (1 + u / d))
  | _, _ => none

/-- The un-clamped score of `calculate_technical_score` (requires ≥ 2 rows). -/
def techScoreCore (sqrtFn : ℚ → ℚ) (h : Hist) : ℚ :=
  let closes := h.closes
  let n := closes.length
  let ema12 := ewma (2 / 13) closes
  let ema26 := ewma (2 / 27) closes
  let dif := List.zipWith (fun a b => a - b) ema12 ema26
  let dea := ewma (2 / 10) dif
  let macdL := List.zipWith (fun a b => 2 * (a - b)) dif dea
  let someCloses := closes.map some
  let ma5L := rollingMean 5 someCloses
  let ma10L := rollingMean 10 someCloses
  let ma20L := rollingMean 20 someCloses
  let ma60L := rollingMean 60 someCloses
  let delta := diffO closes
  let up := delta.map (Option.map (fun d => max d 0))
  let down := delta.map (Option.map (fun d => -(min d 0)))
  let roll_up := rollingMean 14 up
  let roll_down := rollingMean 14 down
  let rsiL := List.zipWith rsiAt roll_up roll_down
  let std20 := rollingStd sqrtFn 20 someCloses
  let bbLowL := List.zipWith (fun m s =>
    match m, s with
    | some m, some s => some (m - 2 * s)
    | _, _ => (none : Option ℚ)) ma20L std20
  let vol_ratio : ℚ :=
    match h.vols? with
    | some vols =>
      let sv := vols.map some
      let v5 := rollingMean 5 sv
      let v10 := rollingMean 10 sv
      let last_vol := vols.getLast?
      let base := pyMax (pyOr (lastO v5) 0) (pyOr (lastO v10) 0)
      match last_vol, base with
      | some lv, some b => if 0 < b then lv / b else 0
      | _, _ => 0
    | none => 0
  let close := closes.getLastD 0
  let macd? := pyOr (some (macdL.getLastD 0)) 0
  let ma5? := pyOr (lastO ma5L) 0
  let ma10? := pyOr (lastO ma10L) 0
  let ma20? := pyOr (lastO ma20L) 0
  let ma60? := pyOr (lastO ma60L) 0
  let rsi? := pyOr (lastO rsiL) 50
  let bbMid? := pyOrO (lastO ma20L) ma20?
  let bbLow? := pyOrO (lastO bbLowL) ma20?
  let gcs := (List.range dif.length).map (fun i =>
    match i with
    | 0 => false
    | Nat.succ j =>
      decide (dea.getD i 0 < dif.getD i 0) && decide (dif.getD j 0 ≤ dea.getD j 0))
  let has_gc := (takeLast 10 gcs).any (fun b => b)
  let s1 : ℚ := if oLt (some 0) macd? then 12 else 0
  let s2 : ℚ := if has_gc then 8 else 0
  let s3 : ℚ :=
    if oLt ma10? ma5? && oLt ma20? ma10? && oLt ma60? ma20? then 25
    else if oLt ma10? ma5? && oLt ma20? ma10? then 16
    else if oLt ma10? ma5? then 8 else 0
  let s4 : ℚ :=
    if oLe (some 40) rsi? && oLe rsi? (some 70) then 15
    else if oLe (some 30) rsi? && oLe rsi? (some 80) then 8 else 0
  let s5 : ℚ :=
    if oLt bbMid? (some close) then 10
    else if oLt bbLow? (some close) then 5 else 0
  let s6 : ℚ :=
    if 18 / 10 ≤ vol_ratio then 20
    else if 14 / 10 ≤ vol_ratio then 14
    else if 12 / 10 ≤ vol_ratio then 8 else 0
  let rmin20 := rollingMin 20 someCloses
  let near_bottom := oLe (some close) ((lastO rmin20).map (fun m => m * (11 / 10)))
  let recent := takeLast 5 closes
  let rds := takeLast 3 (diffO recent)
  let rising := rds.all (fun o =>
    match o with
    | some d => decide (0 < d)
    | none => false)
  let ma5_up := oLt (ma5L.getD (n - 2) none) (ma5L.getD (n - 1) none)
  let s7 : ℚ := if near_bottom && rising && ma5_up then 15 else 0
  s1 + s2 + s3 + s4 + s5 + s6 + s7

/-- selectStocks.py `calculate_technical_score`: a fetch exception or an empty
frame scores 0; a single-row frame raises IndexError (`.error`); otherwise the
indicator score clamped to [0, 100]. -/
def calculate_technical_score (sqrtFn : ℚ → ℚ) (fetch : Except Unit Hist) : Except Unit ℚ :=
  match fetch with
  | .error _ => .ok 0
  | .ok h =>
    if h.closes.isEmpty then .ok 0
    else if h.closes.length = 1 then .error ()
    else .ok (min 100 (max 0 (techScoreCore sqrtFn h)))

/-! ### selectStocks.py: calculate_fundamental_score  (claims C7, C8)

`get_fundamental_data` is the upstream boundary: its outcome is the
`Option FundamentalData` input (`none` = the empty dict returned on a fetch
failure / empty frame, which is falsy). -/

structure FundamentalData where
  net_profit : ℚ
  roe : ℚ
  gross_margin : ℚ
  net_profit_growth : ℚ
  revenue_growth : ℚ
  debt_ratio : ℚ
  current_ratio : ℚ
  pe_ratio : ℚ
  pb_ratio : ℚ
deriving DecidableEq

/-- The growth-industry keyword list hardcoded in `calculate_fundamental_score`. -/
def techKeywords : List String :=
  ["科技", "半导体", "互联网", "新能源", "软件", "芯片", "AI", "通信"]

/-- The post-gate score of `calculate_fundamental_score` before clamping. -/
def fundamentalCore (is_tech : Bool) (d : FundamentalData) : ℚ :=
  let roeScore : ℚ :=
    if 18 / 100 < d.roe then 30
    else if 12 / 100 < d.roe then 24
    else if 8 / 100 < d.roe then 18
    else if 5 / 100 < d.roe then 10 else 0
  let growth_weight : ℚ := if is_tech then 30 else 25
  let growthScore : ℚ :=
    if 25 / 100 < d.revenue_growth ∧ 25 / 100 < d.net_profit_growth then growth_weight
    else if 15 / 100 < d.revenue_growth ∧ 15 / 100 < d.net_profit_growth then
      growth_weight * (8 / 10)
    else if 8 / 100 < d.revenue_growth ∧ 8 / 100 < d.net_profit_growth then
      growth_weight * (6 / 10)
    else if 0 < d.revenue_growth ∧ 0 < d.net_profit_growth then growth_weight * (4 / 10)
    else 0
  let valuation_weight : ℚ := 20
  let valuationScore : ℚ :=
    if 0 < d.pe_ratio then
      if is_tech then
        if d.pe_ratio < 30 then valuation_weight
        else if d.pe_ratio < 45 then valuation_weight * (75 / 100)
        else if d.pe_ratio < 60 then valuation_weight * (5 / 10)
        else valuation_weight * (25 / 100)
      else
        if d.pe_ratio < 20 then valuation_weight
        else if d.pe_ratio < 30 then valuation_weight * (75 / 100)
        else if d.pe_ratio < 50 then valuation_weight * (5 / 10)
        else valuation_weight * (25 / 100)
    else 0
  let healthScore : ℚ :=
    if d.debt_ratio < 3 / 10 ∧ 3 / 2 < d.current_ratio then 20
    else if d.debt_ratio < 5 / 10 ∧ 1 < d.current_ratio then 15
    else if d.debt_ratio < 7 / 10 ∧ 8 / 10 < d.current_ratio then 10 else 0
  roeScore + growthScore + valuationScore + healthScore

/-- selectStocks.py `calculate_fundamental_score`: industry-dependent hard
gates first (return 0), then the tiered score clamped to [0, 100]. -/
def calculate_fundamental_score (industry : Option String) (data? : Option FundamentalData) : ℚ :=
  match data? with
  | none => 0
  | some d =>
    let is_tech := is_industry industry techKeywords
    if is_tech then
      if d.revenue_growth < 5 / 100 then 0
      else if d.net_profit < 0 ∧ d.net_profit_growth < -(1 / 10) then 0
      else if 8 / 10 < d.debt_ratio then 0
      else min 100 (max 0 (fundamentalCore true d))
    else
      if d.net_profit ≤ 0 then 0
      else if d.gross_margin < 1 / 10 then 0
      else if d.net_profit_growth < 0 then 0
      else if d.revenue_growth < 2 / 100 then 0
      else if 7 / 10 < d.debt_ratio then 0
      else if d.current_ratio < 8 / 10 then 0
      else min 100 (max 0 (fundamentalCore false d))

/-! ### selectStocks.py: QUOTE_DICT entries and check_stock  (claims C1, C2)

A `Quote` is one QUOTE_DICT row (the fields the pipeline reads).  `check_stock`
gets the per-symbol context as inputs: the quote (`QUOTE_DICT.get`), the
连续换手率 field of the symbol's FUND_FLOW_DICT row (`none` when the symbol is
absent — `.get(code, {}).get("连续换手率", 0)` then defaults to 0), the cached
industry, the fundamental record, and the history fetch used by the technical
score. -/

structure Quote where
  code : String
  name : String
  price : ℚ
  pctChg : ℚ
  chg : ℚ
  vol : ℚ
  amount : ℚ
  high : ℚ
  low : ℚ
  openP : ℚ
  preClose : ℚ
  turnover : ℚ
  floatCap : ℚ
  totalCap : ℚ
  ytdChg : ℚ
  pe : ℚ
  pb : ℚ
deriving DecidableEq

structure ScoreResult where
  code : String
  name : String
  price : ℚ
  pctChg : ℚ
  totalCap : ℚ
  ytdChg : ℚ
  industry : Option String
  fundamental : ℚ
  technical : ℚ
  total : ℚ
deriving DecidableEq

/-- selectStocks.py `check_stock`: no quote → no result; turnover gate
(`连续换手率 < 3×thr or 换手率 < thr`) → no result; otherwise score and emit. -/
def check_stock (quote? : Option Quote) (fundFlowCum? : Option ℚ) (industry : Option String)
    (fdata? : Option FundamentalData) (sqrtFn : ℚ → ℚ) (hist : Except Unit Hist) :
    Except Unit (Option ScoreResult) :=
  match quote? with
  | none => .ok none
  | some row =>
    let dynamic_thr := get_dynamic_turnover_threshold row.floatCap
    if fundFlowCum?.getD 0 < dynamic_thr * 3 ∨ row.turnover < dynamic_thr then .ok none
    else
      let fundamental_score := calculate_fundamental_score industry fdata?
      match calculate_technical_score sqrtFn hist with
      | .error e => .error e
      | .ok technical_score =>
        .ok (some {
          code := row.code
          name := row.name
          price := row.price
          pctChg := row.pctChg
          totalCap := row.totalCap
          ytdChg := row.ytdChg
          industry := industry
          fundamental := fundamental_score
          technical := technical_score
          total := calculate_total_score fundamental_score technical_score })

/-! ### selectStocks.py: build_quote_dict_from_hist  (claim C2)

One row of the database history frame; `trade_date` is a `YYYYMMDD` number
(numeric comparison on 8-digit dates agrees with the source's string
comparison).  `yearStart` is `current_year_start`.  Values in the frame are
non-NaN (the `pd.notna` defaults never trigger on rows read back from the
database, and the claims do not depend on them). -/

structure HistRow where
  trade_date : Nat
  openP : ℚ
  high : ℚ
  low : ℚ
  close : ℚ
  preClose : ℚ
  chg : ℚ
  pctChg : ℚ
  vol : ℚ
  amount : ℚ
deriving DecidableEq

/-- selectStocks.py `build_quote_dict_from_hist`: empty frame → `None`; else a
quote whose 换手率 / 流通市值 / 总市值 / 市盈率 / 市净率 are hardcoded to 0. -/
def build_quote_dict_from_hist (code name : String) (yearStart : Nat)
    (hist : List HistRow) : Option Quote :=
  match hist.getLast? with
  | none => none
  | some latest =>
    let year_start_price? := (hist.filter (fun r => decide (yearStart ≤ r.trade_date))).head?
    let current_price := latest.close
    let ytd_pct_chg : ℚ :=
      match year_start_price? with
      | some r => if r.close ≠ 0 ∧ 0 < r.close then (current_price - r.close) / r.close * 100 else 0
      | none => 0
    some {
      code := code
      name := name
      price := current_price
      pctChg := latest.pctChg
      chg := latest.chg
      vol := latest.vol * 100
      amount := latest.amount * 1000
      high := latest.high
      low := latest.low
      openP := latest.openP
      preClose := latest.preClose
      turnover := 0
      floatCap := 0
      totalCap := 0
      ytdChg := ytd_pct_chg
      pe := 0
      pb := 0 }

/-! ### selectStocks.py: reference-set loaders and load_filter_lists  (claim C10)

Each upstream ranking feed is an `Except Unit` input.  The loaders wrapped in
`try/except` map `.error` to an empty structure (`init_half_year_high` assigns
`set()` in its handler; `init_fund_flow_cache` clears first; `load_ljqd_blacklist`
leaves the previous — initially empty — set).  `load_up_trend_stocks` has no
handler, so inside `load_filter_lists` its exception propagates (`.error`). -/

def init_half_year_high (res : Except Unit (List String)) : List String :=
  match res with
  | .ok l => l
  | .error _ => []

/-- rows = (股票代码, 量价齐跌天数); the blacklist keeps codes with days ≥ min_days. -/
def load_ljqd_blacklist (prev : List String) (min_days : Nat)
    (res : Except Unit (List (String × Nat))) : List String :=
  match res with
  | .ok rows => (rows.filter (fun r => decide (min_days ≤ r.2))).map (fun r => r.1)
  | .error _ => prev

/-- FUND_FLOW_DICT as code ↦ parsed row (the claims only need emptiness). -/
def init_fund_flow_cache (res : Except Unit (List (String × ℚ))) : List (String × ℚ) :=
  match res with
  | .ok l => l
  | .error _ => []

/-- Board exclusion: startswith(("300", "301", "688", "689", "8")). -/
def boardExcluded (code : String) : Bool :=
  ["300", "301", "688", "689", "8"].any (fun p => charsStart p.toList code.toList)

def industry_blacklist : List String := ["国防", "军工", "钢铁", "贵金属"]

/-- selectStocks.py `load_filter_lists`: the up-trend list is fetched without a
handler (its failure propagates); ST and suspension lists fall back to empty
sets; then board filter, membership exclusion, merged-quote funds filter
(a missing quote row gives NaN comparisons, all false) and industry blacklist. -/
def load_filter_lists (upTrend : Except Unit (List String))
    (stRes suspRes : Except Unit (List String))
    (halfYearHigh ljqd : List String)
    (quote : String → Option Quote) (maxFunds : ℚ)
    (industryOf : String → Option String) : Except Unit (List String) :=
  match upTrend with
  | .error e => .error e
  | .ok stock_list =>
    let st_codes := match stRes with | .ok l => l | .error _ => []
    let suspension_codes := match suspRes with | .ok l => l | .error _ => []
    let l1 := stock_list.filter (fun c => !boardExcluded c)
    let excluded_codes := st_codes ++ suspension_codes ++ halfYearHigh ++ ljqd
    let l2 := l1.filter (fun c => !excluded_codes.contains c)
    let l3 := l2.filter (fun c =>
      match quote c with
      | some q =>
        decide (q.price * 100 ≤ maxFunds / 3) && decide (5 ≤ q.price) &&
          decide (50000000 ≤ q.amount)
      | none => false)
    let l4 := l3.filter (fun c => !is_industry (industryOf c) industry_blacklist)
    .ok l4

/-! ### selectStocks.py `__main__` post-processing  (claim C9)

`picked.drop_duplicates(subset="代码")` keeps the first occurrence of each
code; `picked.sort_values(by="总分", ascending=False)` orders by total score
descending.  A row is modelled by the two fields those operations read. -/

structure PickRow where
  code : String
  score : ℚ
deriving DecidableEq

/-- pandas `drop_duplicates(subset="代码")` (default keep="first"). -/
def drop_duplicates : List PickRow → List PickRow
  | [] => []
  | r :: rest => r :: drop_duplicates (rest.filter (fun x => x.code != r.code))
termination_by l => l.length
decreasing_by
  simp only [List.length_cons]
  exact Nat.lt_succ_of_le (List.length_filter_le _ _)

def scoreDescRel (a b : PickRow) : Prop := b.score ≤ a.score

instance : DecidableRel scoreDescRel :=
  fun a b => inferInstanceAs (Decidable (b.score ≤ a.score))

instance : IsTotal PickRow scoreDescRel := ⟨fun a b => le_total b.score a.score⟩

instance : IsTrans PickRow scoreDescRel := ⟨fun _ _ _ h1 h2 => le_trans h2 h1⟩

/-- pandas `sort_values(by="总分", ascending=False)`. -/
def sort_values_desc (l : List PickRow) : List PickRow := List.insertionSort scoreDescRel l

/-- The `__main__` post-processing: drop duplicate codes, then sort by score. -/
def main_postprocess (l : List PickRow) : List PickRow := sort_values_desc (drop_duplicates l)

/-! ### Concrete inputs used by counterexamples and witnesses -/

/-- A 5-bar rising history with constant volume (fewer than 60 bars). -/
def histShort : Hist := ⟨[10, 11, 12, 13, 14], some [100, 100, 100, 100, 100]⟩

/-- Growth-sector issuer with a modest (1%) revenue decline and otherwise
excellent metrics. -/
def fdDecline : FundamentalData :=
  ⟨500000000, 2 / 10, 5 / 10, 3 / 10, -(1 / 100), 2 / 10, 2, 25, 3⟩

/-- Same issuer with +4% revenue growth: above the non-growth bar (2%) but
below the growth-sector bar (5%). -/
def fdSlowGrowth : FundamentalData :=
  ⟨500000000, 2 / 10, 5 / 10, 3 / 10, 4 / 100, 2 / 10, 2, 25, 3⟩

/-- Loss-making, 75%-levered issuer that still passes the growth-sector gates. -/
def fdTolerated : FundamentalData :=
  ⟨-1000, 2 / 10, 5 / 10, -(5 / 100), 3 / 10, 75 / 100, 2, 25, 3⟩

/-- A mid-priced quote whose turnover (10%) is below its small-cap threshold. -/
def demoQuote : Quote :=
  { code := "000001", name := "demo", price := 10, pctChg := 1, chg := 1 / 10, vol := 1000
    amount := 60000000, high := 11, low := 9, openP := 10, preClose := 10
    turnover := 1 / 10, floatCap := 4000000000, totalCap := 5000000000
    ytdChg := 5, pe := 12, pb := 2 }

def demoHistRows : List HistRow := [⟨20250101, 1, 1, 1, 10, 1, 0, 0, 1, 1⟩]

/-- The quote `build_quote_dict_from_hist` produces from `demoHistRows`. -/
def demoHistQuote : Quote :=
  { code := "000001", name := "n", price := 10, pctChg := 0, chg := 0, vol := 100
    amount := 1000, high := 1, low := 1, openP := 1, preClose := 1
    turnover := 0, floatCap := 0, totalCap := 0, ytdChg := 0, pe := 0, pb := 0 }

/-- A result list with a duplicated code carrying different scores. -/
def demoRows : List PickRow := [⟨"000001", 50⟩, ⟨"000002", 80⟩, ⟨"000001", 99⟩]

/-- Date-uniqueness of an optional cache (`True` when there is no cache). -/
def cacheDatesNodup : Option (List HistBar) → Prop
  | some c => ((c.map (fun b => b.date)).Nodup)
  | none => True

/-! ## Theorems -/

unseal Rat.mul Rat.inv Rat.add Rat.sub Nat.gcd in
/-- C3: `parse_number` is a total function (the source catches every exception
and falls back to `0.0`) with `parse(None) = 0`, `parse("12.5%") = 0.125`,
`parse("3.2万") = 32000`, `parse("1.1亿") = 110000000`, and empty or
unparseable strings giving `0`. -/
theorem parse_number_spec_values :
    parse_number PyVal.pynone = 0 ∧
    parse_number (PyVal.str "12.5%") = 125 / 1000 ∧
    parse_number (PyVal.str "3.2万") = 32000 ∧
    parse_number (PyVal.str "1.1亿") = 110000000 ∧
    parse_number (PyVal.str "") = 0 ∧
    parse_number (PyVal.str "garbage") = 0 := by
  refine ⟨rfl, by decide, by decide, by decide, by decide, by decide⟩

/-- C1: the turnover gate of `check_stock` uses the free-float-cap tiered
threshold (0.15 up to and including 50e8, 0.08 up to and including 200e8,
0.03 above), and a quoted symbol is excluded — `check_stock` yields no result,
not a zero-scored one — unless the FUND_FLOW_DICT cumulative turnover is at
least 3× the threshold and the instantaneous turnover is at least the
threshold; when both hold (and the technical scorer returns) a result is
emitted. -/
theorem check_stock_turnover_gate :
    (∀ cap : ℚ,
      (cap ≤ 50 * 10 ^ 8 → get_dynamic_turnover_threshold cap = 15 / 100) ∧
      (50 * 10 ^ 8 < cap → cap ≤ 200 * 10 ^ 8 → get_dynamic_turnover_threshold cap = 8 / 100) ∧
      (200 * 10 ^ 8 < cap → get_dynamic_turnover_threshold cap = 3 / 100)) ∧
    (∀ (row : Quote) (cum? : Option ℚ) (ind : Option String) (fd : Option FundamentalData)
        (sq : ℚ → ℚ) (hist : Except Unit Hist),
      (¬ (get_dynamic_turnover_threshold row.floatCap * 3 ≤ cum?.getD 0 ∧
            get_dynamic_turnover_threshold row.floatCap ≤ row.turnover) →
        check_stock (some row) cum? ind fd sq hist = .ok none) ∧
      ((get_dynamic_turnover_threshold row.floatCap * 3 ≤ cum?.getD 0 ∧
            get_dynamic_turnover_threshold row.floatCap ≤ row.turnover) →
        ∀ ts, calculate_technical_score sq hist = .ok ts →
          ∃ res, check_stock (some row) cum? ind fd sq hist = .ok (some res))) := by
  constructor
  · intro cap
    refine ⟨fun h1 => ?_, fun h1 h2 => ?_, fun h1 => ?_⟩
    · simp only [get_dynamic_turnover_threshold, if_pos h1]
    · simp only [get_dynamic_turnover_threshold, if_neg (not_le.mpr h1), if_pos h2]
    · have h0 : ¬ cap ≤ 50 * 10 ^ 8 := not_le.mpr (lt_trans (by norm_num) h1)
      simp only [get_dynamic_turnover_threshold, if_neg h0, if_neg (not_le.mpr h1)]
  · intro row cum? ind fd sq hist
    constructor
    · intro hfail
      have hcond : cum?.getD 0 < get_dynamic_turnover_threshold row.floatCap * 3 ∨
          row.turnover < get_dynamic_turnover_threshold row.floatCap := by
        rcases not_and_or.mp hfail with h | h
        · exact Or.inl (not_le.mp h)
        · exact Or.inr (not_le.mp h)
      simp only [check_stock, if_pos hcond]
    · intro hok ts hts
      have hcond : ¬ (cum?.getD 0 < get_dynamic_turnover_threshold row.floatCap * 3 ∨
          row.turnover < get_dynamic_turnover_threshold row.floatCap) := by
        push_neg
        exact hok
      simp only [check_stock, if_neg hcond, hts]
      exact ⟨_, rfl⟩

unseal Rat.mul Rat.inv Rat.add Rat.sub Nat.gcd in
/-- Witness for C1 at a concrete quote: a 40e8 free-float cap selects the
small-cap threshold, and a 10% turnover fails that 15% bar, so the symbol is
excluded. -/
theorem check_stock_turnover_gate_witness :
    get_dynamic_turnover_threshold (50 * 10 ^ 8) = 15 / 100 ∧
    check_stock (some demoQuote) (some (1 / 10)) none none (fun q => q) (.error ()) =
      .ok none :=
  ⟨(check_stock_turnover_gate.1 (50 * 10 ^ 8)).1 (by norm_num),
   (check_stock_turnover_gate.2 demoQuote (some (1 / 10)) none none (fun q => q)
      (.error ())).1 (by decide)⟩

/-- C2: every quote produced by `build_quote_dict_from_hist` has 换手率 = 0 and
流通市值 = 0; cap 0 falls in the small-cap tier (threshold 0.15), the
instantaneous turnover 0 always fails it, so `check_stock` returns no result
for such a symbol, whatever its fund-flow record, industry, fundamentals or
history. -/
theorem hist_quote_always_rejected (code name : String) (yearStart : Nat)
    (hist : List HistRow) (q : Quote)
    (hq : build_quote_dict_from_hist code name yearStart hist = some q) :
    q.turnover = 0 ∧ q.floatCap = 0 ∧
    get_dynamic_turnover_threshold q.floatCap = 15 / 100 ∧
    ∀ (cum? : Option ℚ) (ind : Option String) (fd : Option FundamentalData)
      (sq : ℚ → ℚ) (h2 : Except Unit Hist),
      check_stock (some q) cum? ind fd sq h2 = .ok none := by
  rcases hlast : hist.getLast? with _ | latest
  · rw [build_quote_dict_from_hist, hlast] at hq
    exact absurd hq (by simp)
  · rw [build_quote_dict_from_hist, hlast] at hq
    have hq' := Option.some.inj hq
    subst hq'
    refine ⟨rfl, rfl, by norm_num [get_dynamic_turnover_threshold], ?_⟩
    intro cum? ind fd sq h2
    have hcond : cum?.getD 0 < get_dynamic_turnover_threshold (0 : ℚ) * 3 ∨
        (0 : ℚ) < get_dynamic_turnover_threshold (0 : ℚ) := by
      right
      norm_num [get_dynamic_turnover_threshold]
    simp only [check_stock, if_pos hcond]

unseal Rat.mul Rat.inv Rat.add Rat.sub Nat.gcd in
/-- Witness for C2 at a concrete one-row history. -/
theorem hist_quote_always_rejected_witness :
    check_stock (some demoHistQuote) (some 10) none none (fun q => q) (.error ()) =
      .ok none := by
  have h : build_quote_dict_from_hist "000001" "n" 20250101 demoHistRows = some demoHistQuote := by
    decide
  exact (hist_quote_always_rejected "000001" "n" 20250101 demoHistRows demoHistQuote h).2.2.2
    (some 10) none none (fun q => q) (.error ())

unseal Rat.mul Rat.inv Rat.add Rat.sub Nat.gcd in
/-- C6 counterexample: a rising 5-bar history (fewer than 60 bars) is not
scored 0 — MACD is positive (+12) and a golden cross occurred (+8), so
`calculate_technical_score` returns 20. -/
theorem technical_score_short_history_nonzero :
    histShort.closes.length < 60 ∧
    calculate_technical_score (fun q => q) (.ok histShort) = .ok 20 ∧
    calculate_technical_score (fun q => q) (.ok histShort) ≠ .ok 0 := by
  refine ⟨by decide, by decide, by decide⟩

/-- C6 amended: `calculate_technical_score` returns 0 exactly on the paths the
source short-circuits — a raised fetch exception or an empty history frame.
There is no 60-bar minimum: any nonempty shorter history is still scored (and
can be nonzero, see the counterexample; a one-row frame even raises
IndexError). -/
theorem technical_score_zero_on_empty_or_error (sqrtFn : ℚ → ℚ) (v? : Option (List ℚ)) :
    calculate_technical_score sqrtFn (.error ()) = .ok 0 ∧
    calculate_technical_score sqrtFn (.ok ⟨[], v?⟩) = .ok 0 :=
  ⟨rfl, rfl⟩

unseal Rat.mul Rat.inv Rat.add Rat.sub Nat.gcd in
/-- C7 counterexample: the growth-sector gate requires revenue growth ≥ 5%, so
a 半导体 issuer with a modest 1% revenue decline — or even +4% growth — scores
0, while the same +4%-growth record in a non-growth industry (银行) scores 75.
Growth sectors do not tolerate revenue decline; their revenue bar is stricter
than the non-growth 2%. -/
theorem fundamental_growth_gate_counterexample :
    is_industry (some "半导体") techKeywords = true ∧
    calculate_fundamental_score (some "半导体") (some fdDecline) = 0 ∧
    calculate_fundamental_score (some "半导体") (some fdSlowGrowth) = 0 ∧
    is_industry (some "银行") techKeywords = false ∧
    calculate_fundamental_score (some "银行") (some fdSlowGrowth) = 75 := by
  refine ⟨by decide, by decide, by decide, by decide, by decide⟩

unseal Rat.mul Rat.inv Rat.add Rat.sub Nat.gcd in
/-- C7 amended: `calculate_fundamental_score` applies industry-dependent hard
gates returning 0 immediately.  Non-growth issuers: net profit ≤ 0, gross
margin < 0.1, profit growth < 0, revenue growth < 0.02, debt ratio > 0.7 or
current ratio < 0.8 each give 0.  Growth-sector issuers (fuzzy keyword match)
get a higher leverage ceiling (0.8), tolerate losses while profit growth is
≥ −0.1, and skip the margin and current-ratio gates — but their revenue-growth
bar is 0.05, stricter than the non-growth 0.02, so modest revenue decline is
not tolerated (see the counterexample); a loss-making 75%-levered growth
issuer can still score positively. -/
theorem fundamental_hard_gates_spec (ind : Option String) (d : FundamentalData) :
    (is_industry ind techKeywords = false →
      ((d.net_profit ≤ 0 → calculate_fundamental_score ind (some d) = 0) ∧
       (d.gross_margin < 1 / 10 → calculate_fundamental_score ind (some d) = 0) ∧
       (d.net_profit_growth < 0 → calculate_fundamental_score ind (some d) = 0) ∧
       (d.revenue_growth < 2 / 100 → calculate_fundamental_score ind (some d) = 0) ∧
       (7 / 10 < d.debt_ratio → calculate_fundamental_score ind (some d) = 0) ∧
       (d.current_ratio < 8 / 10 → calculate_fundamental_score ind (some d) = 0))) ∧
    (is_industry ind techKeywords = true →
      ((d.revenue_growth < 5 / 100 → calculate_fundamental_score ind (some d) = 0) ∧
       (d.net_profit < 0 ∧ d.net_profit_growth < -(1 / 10) →
         calculate_fundamental_score ind (some d) = 0) ∧
       (8 / 10 < d.debt_ratio → calculate_fundamental_score ind (some d) = 0))) ∧
    (0 < calculate_fundamental_score (some "软件") (some fdTolerated) ∧
     fdTolerated.net_profit < 0 ∧ fdTolerated.debt_ratio = 75 / 100 ∧
     calculate_fundamental_score (some "银行") (some fdTolerated) = 0) := by
  refine ⟨?_, ?_, ?_⟩
  · intro htech
    refine ⟨?_, ?_, ?_, ?_, ?_, ?_⟩ <;> intro hcond <;>
      simp only [calculate_fundamental_score, htech, Bool.false_eq_true, if_false] <;>
      split_ifs <;> first | rfl | exact absurd hcond (by assumption) | linarith
  · intro htech
    refine ⟨?_, ?_, ?_⟩ <;> intro hcond <;>
      simp only [calculate_fundamental_score, htech, if_true] <;>
      split_ifs <;> first | rfl | exact absurd hcond (by assumption) | linarith
  · refine ⟨?_, ?_, ?_, ?_⟩
    · decide
    · decide
    · decide
    · decide

unseal Rat.mul Rat.inv Rat.add Rat.sub Nat.gcd in
/-- Witness for C7 at a concrete record: a non-growth issuer with negative net
profit is hard-gated to 0. -/
theorem fundamental_hard_gates_witness :
    calculate_fundamental_score (some "银行") (some fdTolerated) = 0 :=
  ((fundamental_hard_gates_spec (some "银行") fdTolerated).1 (by decide)).1 (by decide)

theorem roundHalfEven_nonneg (x : ℚ) (hx : 0 ≤ x) : 0 ≤ roundHalfEven x := by
  have hf : (0 : Int) ≤ ⌊x⌋ := Int.floor_nonneg.mpr hx
  unfold roundHalfEven
  split_ifs <;> omega

theorem roundHalfEven_le (x : ℚ) (n : Int) (hx : x ≤ (n : ℚ)) : roundHalfEven x ≤ n := by
  have hfn : ⌊x⌋ ≤ n := by
    have h := Int.floor_mono hx
    rwa [Int.floor_intCast] at h
  have hkey : ¬ (x - ⌊x⌋ < 1 / 2) → ⌊x⌋ + 1 ≤ n := by
    intro h
    have h12 : (⌊x⌋ : ℚ) + 1 / 2 ≤ x := by
      have := not_lt.mp h
      linarith
    have hlt : (⌊x⌋ : ℚ) < (n : ℚ) := by linarith
    have : ⌊x⌋ < n := by exact_mod_cast hlt
    omega
  unfold roundHalfEven
  split_ifs with h1 h2 h3
  · exact hfn
  · exact hkey h1
  · exact hfn
  · exact hkey h1

theorem round2_bounds (x : ℚ) (h0 : 0 ≤ x) (h100 : x ≤ 100) :
    0 ≤ round2 x ∧ round2 x ≤ 100 := by
  have h1 : (0 : Int) ≤ roundHalfEven (x * 100) := roundHalfEven_nonneg _ (by positivity)
  have h2 : roundHalfEven (x * 100) ≤ (10000 : Int) :=
    roundHalfEven_le _ 10000 (by push_cast; linarith)
  unfold round2
  constructor
  · apply div_nonneg _ (by norm_num)
    exact_mod_cast h1
  · rw [div_le_iff₀ (by norm_num)]
    have : (roundHalfEven (x * 100) : ℚ) ≤ (10000 : ℚ) := by exact_mod_cast h2
    linarith

/-- C8: `calculate_total_score` is `round(0.6·fundamental + 0.4·technical, 2)`,
and both sub-score functions clamp to [0, 100], so for sub-scores in range the
total also lies in [0, 100] even though it is not re-clamped. -/
theorem total_score_formula_and_bounds :
    (∀ f t : ℚ, calculate_total_score f t = round2 (6 / 10 * f + 4 / 10 * t)) ∧
    (∀ f t : ℚ, 0 ≤ f → f ≤ 100 → 0 ≤ t → t ≤ 100 →
      0 ≤ calculate_total_score f t ∧ calculate_total_score f t ≤ 100) ∧
    (∀ (ind : Option String) (d? : Option FundamentalData),
      0 ≤ calculate_fundamental_score ind d? ∧ calculate_fundamental_score ind d? ≤ 100) ∧
    (∀ (sq : ℚ → ℚ) (h : Except Unit Hist) (q : ℚ),
      calculate_technical_score sq h = .ok q → 0 ≤ q ∧ q ≤ 100) := by
  refine ⟨fun f t => rfl, ?_, ?_, ?_⟩
  · intro f t hf0 hf1 ht0 ht1
    have hx0 : 0 ≤ 6 / 10 * f + 4 / 10 * t := by linarith
    have hx1 : 6 / 10 * f + 4 / 10 * t ≤ 100 := by linarith
    exact round2_bounds _ hx0 hx1
  · intro ind d?
    cases d? with
    | none =>
      rw [show calculate_fundamental_score ind none = (0 : ℚ) from rfl]
      exact ⟨le_refl 0, by norm_num⟩
    | some d =>
      simp only [calculate_fundamental_score]
      split_ifs <;>
        first
          | exact ⟨le_refl 0, by norm_num⟩
          | exact ⟨le_min (by norm_num) (le_max_left 0 _), min_le_left _ _⟩
  · intro sq h q heq
    cases h with
    | error e =>
      simp only [calculate_technical_score] at heq
      obtain rfl : (0 : ℚ) = q := Except.ok.inj heq
      norm_num
    | ok hh =>
      simp only [calculate_technical_score] at heq
      split_ifs at heq
      · obtain rfl : (0 : ℚ) = q := Except.ok.inj heq
        norm_num
      · obtain rfl : min 100 (max 0 (techScoreCore sq hh)) = q := Except.ok.inj heq
        exact ⟨le_min (by norm_num) (le_max_left 0 _), min_le_left _ _⟩

unseal Rat.mul Rat.inv Rat.add Rat.sub Nat.gcd in
/-- Witness for C8 at in-range sub-scores. -/
theorem total_score_formula_and_bounds_witness :
    0 ≤ calculate_total_score 75 (41 / 2) ∧ calculate_total_score 75 (41 / 2) ≤ 100 :=
  total_score_formula_and_bounds.2.1 75 (41 / 2) (by norm_num) (by norm_num) (by norm_num)
    (by norm_num)

theorem mem_of_mem_dedupKeepLast (l : List HistBar) (x : HistBar)
    (h : x ∈ dedupKeepLast l) : x ∈ l := by
  induction l with
  | nil => simpa [dedupKeepLast] using h
  | cons b rest ih =>
    rw [dedupKeepLast] at h
    split_ifs at h with hb
    · exact List.mem_cons_of_mem _ (ih h)
    · rcases List.mem_cons.mp h with h | h
      · exact h ▸ List.mem_cons_self _ _
      · exact List.mem_cons_of_mem _ (ih h)

theorem dedupKeepLast_dates_nodup (l : List HistBar) :
    ((dedupKeepLast l).map (fun b => b.date)).Nodup := by
  induction l with
  | nil => simp [dedupKeepLast]
  | cons b rest ih =>
    rw [dedupKeepLast]
    split_ifs with hb
    · exact ih
    · simp only [List.map_cons, List.nodup_cons]
      refine ⟨?_, ih⟩
      intro hmem
      rcases List.mem_map.mp hmem with ⟨y, hy, hdate⟩
      exact hb (List.any_eq_true.mpr
        ⟨y, mem_of_mem_dedupKeepLast _ _ hy, by simp [hdate]⟩)

theorem mem_dedupKeepLast_iff (l : List HistBar) (x : HistBar) :
    x ∈ dedupKeepLast l ↔ (l.filter (fun c => c.date == x.date)).getLast? = some x := by
  induction l with
  | nil => simp [dedupKeepLast]
  | cons b rest ih =>
    rw [dedupKeepLast]
    by_cases hd : b.date = x.date
    · have hpb : (fun c => c.date == x.date) b = true := by simp [hd]
      rw [List.filter_cons, if_pos hpb]
      split_ifs with hb
      · rw [ih]
        rcases List.any_eq_true.mp hb with ⟨y, hy, hyd⟩
        have hyd' : y.date = x.date := by
          have : y.date = b.date := by simpa using hyd
          rw [this, hd]
        have hmemf : y ∈ rest.filter (fun c => c.date == x.date) :=
          List.mem_filter.mpr ⟨hy, by simp [hyd']⟩
        cases hfr : rest.filter (fun c => c.date == x.date) with
        | nil => rw [hfr] at hmemf; simp at hmemf
        | cons f fs => rw [List.getLast?_cons_cons]
      · have hfr : rest.filter (fun c => c.date == x.date) = [] := by
          rw [List.filter_eq_nil_iff]
          intro y hy hpy
          exact hb (List.any_eq_true.mpr
            ⟨y, hy, by simp at hpy ⊢; rw [hpy, hd]⟩)
        rw [hfr]
        constructor
        · intro h
          rcases List.mem_cons.mp h with h | h
          · rw [h]
            rfl
          · exfalso
            exact hb (List.any_eq_true.mpr
              ⟨x, mem_of_mem_dedupKeepLast _ _ h, by simp [hd]⟩)
        · intro h
          have hbx : b = x := by
            have := Option.some.inj h
            exact this
          exact hbx ▸ List.mem_cons_self _ _
    · have hpb : ¬ ((fun c => c.date == x.date) b = true) := by simp [hd]
      rw [List.filter_cons, if_neg hpb]
      split_ifs with hb
      · exact ih
      · rw [List.mem_cons]
        constructor
        · rintro (h | h)
          · exact absurd (by rw [h] : b.date = x.date) hd
          · exact ih.mp h
        · intro h
          exact Or.inr (ih.mpr h)

theorem sortBars_dates_nodup (l : List HistBar)
    (h : ((l.map (fun b => b.date)).Nodup)) :
    (((sortBars l).map (fun b => b.date)).Nodup) :=
  (((List.perm_insertionSort _ l).map (fun b => b.date)).nodup_iff).mpr h

theorem afterFetch_cacheAfter_nodup (cache : Option (List HistBar)) (nf : Bool) (s e : Nat)
    (fr : Except Unit (List HistBar)) (h : cacheDatesNodup cache) :
    cacheDatesNodup (afterFetch cache nf s e fr).cacheAfter := by
  cases fr with
  | error u => exact h
  | ok news =>
    simp only [afterFetch]
    split_ifs with hempty
    · exact h
    · exact sortBars_dates_nodup _ (dedupKeepLast_dates_nodup _)

theorem gsh_cacheAfter_nodup (cache : Option (List HistBar)) (s e t : Nat)
    (fetch : Nat → Nat → Except Unit (List HistBar)) (h : cacheDatesNodup cache) :
    cacheDatesNodup (get_stock_history cache s e t fetch).cacheAfter := by
  cases cache with
  | none =>
    simp only [get_stock_history]
    exact afterFetch_cacheAfter_nodup _ _ _ _ _ h
  | some c =>
    simp only [get_stock_history]
    split_ifs with h1 h2 h3
    · exact afterFetch_cacheAfter_nodup _ _ _ _ _ h
    · exact afterFetch_cacheAfter_nodup _ _ _ _ _ h
    · exact h
    · exact afterFetch_cacheAfter_nodup _ _ _ _ _ h

/-- C4: `get_stock_history` never propagates an upstream exception: when every
fetch raises, the result is the cached bars filtered to the request range when
a nonempty cache was loaded and empty otherwise (`cachedFallback`); and a
delta fetch that returns an empty frame while a cache exists also falls back
to the cached bars filtered to the range.  (The embedding consumes the fetch
outcome as an `Except` value, so the function is total: no exception escapes.) -/
theorem get_stock_history_fallback (cache : Option (List HistBar)) (s e t : Nat)
    (fetch : Nat → Nat → Except Unit (List HistBar)) :
    ((∀ a b, fetch a b = .error ()) →
      (get_stock_history cache s e t fetch).result = cachedFallback cache s e) ∧
    (∀ c, cache = some c → c ≠ [] → minDate c ≤ s → maxDate c < t →
      fetch (maxDate c + 1) e = .ok [] →
      (get_stock_history cache s e t fetch).result = filterRange c s e) := by
  constructor
  · intro herr
    cases cache with
    | none => simp [get_stock_history, herr, afterFetch, cachedFallback]
    | some c =>
      simp only [get_stock_history]
      split_ifs with h1 h2 h3
      · simp [herr, afterFetch, cachedFallback, h1]
      · simp [herr, afterFetch, cachedFallback]
      · simp [cachedFallback, h1]
      · simp [herr, afterFetch, cachedFallback]
  · intro c hc hne hmin hmax hfetch
    subst hc
    have hemp : ¬ (c.isEmpty = true) := by
      simpa [List.isEmpty_iff] using hne
    simp only [get_stock_history]
    rw [if_neg hemp, if_pos ⟨hmin, hmax⟩, hfetch]
    simp [afterFetch, cachedFallback, hemp]

unseal Rat.mul Rat.inv Rat.add Rat.sub Nat.gcd in
/-- Witness for C4: with a one-bar cache and a permanently failing upstream,
the call returns the filtered cached bar. -/
theorem get_stock_history_fallback_witness :
    (get_stock_history (some [⟨5, 10⟩]) 1 9 7 (fun a b => .error ())).result =
      cachedFallback (some [⟨5, 10⟩]) 1 9 :=
  (get_stock_history_fallback (some [⟨5, 10⟩]) 1 9 7 (fun a b => .error ())).1
    (fun a b => rfl)

/-- C5: gap-fill idempotence.  (i) Merged caches are deduplicated by date
keeping the last-written row: membership in `dedupKeepLast` is exactly being
the last row of one's date.  (ii) A call never introduces duplicate dates into
the cache.  (iii) When the cache covers `[start_date, today]` the call returns
the filtered slice with `fetched = false` — no upstream request.  (iv) Hence
two same-day calls leave a duplicate-free cache. -/
theorem get_stock_history_idempotent :
    (∀ (l : List HistBar) (x : HistBar),
      x ∈ dedupKeepLast l ↔ (l.filter (fun c => c.date == x.date)).getLast? = some x) ∧
    (∀ (cache : Option (List HistBar)) (s e t : Nat)
        (fetch : Nat → Nat → Except Unit (List HistBar)),
      cacheDatesNodup cache →
      cacheDatesNodup (get_stock_history cache s e t fetch).cacheAfter) ∧
    (∀ (c : List HistBar) (s e t : Nat) (fetch : Nat → Nat → Except Unit (List HistBar)),
      c ≠ [] → minDate c ≤ s → t ≤ maxDate c →
      (get_stock_history (some c) s e t fetch).fetched = false ∧
      (get_stock_history (some c) s e t fetch).result = filterRange c s e) ∧
    (∀ (cache : Option (List HistBar)) (s e t : Nat)
        (f1 f2 : Nat → Nat → Except Unit (List HistBar)),
      cacheDatesNodup cache →
      cacheDatesNodup (get_stock_history
        (get_stock_history cache s e t f1).cacheAfter s e t f2).cacheAfter) := by
  refine ⟨mem_dedupKeepLast_iff, gsh_cacheAfter_nodup, ?_, ?_⟩
  · intro c s e t fetch hne hmin hmax
    have hemp : ¬ (c.isEmpty = true) := by
      simpa [List.isEmpty_iff] using hne
    have hno : ¬ (minDate c ≤ s ∧ maxDate c < t) := by
      rintro ⟨_, hlt⟩
      exact absurd hlt (not_lt.mpr hmax)
    constructor <;>
      · simp only [get_stock_history]
        rw [if_neg hemp, if_neg hno, if_pos ⟨hmin, hmax⟩]
  · intro cache s e t f1 f2 h
    exact gsh_cacheAfter_nodup _ _ _ _ _ (gsh_cacheAfter_nodup _ _ _ _ _ h)

unseal Rat.mul Rat.inv Rat.add Rat.sub Nat.gcd in
/-- Witness for C5: a cache covering the request range up to today answers a
second same-day call with no upstream request, and a merged duplicate pair
keeps the later row. -/
theorem get_stock_history_idempotent_witness :
    (get_stock_history (some [⟨3, 7⟩, ⟨8, 9⟩]) 3 8 8 (fun a b => .error ())).fetched = false ∧
    (⟨3, 99⟩ : HistBar) ∈ dedupKeepLast [⟨3, 7⟩, ⟨3, 99⟩] :=
  ⟨(get_stock_history_idempotent.2.2.1 [⟨3, 7⟩, ⟨8, 9⟩] 3 8 8 (fun a b => .error ())
      (by decide) (by decide) (by decide)).1,
   (get_stock_history_idempotent.1 [⟨3, 7⟩, ⟨3, 99⟩] ⟨3, 99⟩).mpr (by decide)⟩

theorem mem_of_mem_drop_duplicates (l : List PickRow) (x : PickRow)
    (h : x ∈ drop_duplicates l) : x ∈ l := by
  induction l using drop_duplicates.induct with
  | case1 => simpa [drop_duplicates] using h
  | case2 r rest ih =>
    rw [drop_duplicates] at h
    rcases List.mem_cons.mp h with h | h
    · exact h ▸ List.mem_cons_self _ _
    · exact List.mem_cons_of_mem _ (List.mem_filter.mp (ih h)).1

theorem drop_duplicates_codes_nodup (l : List PickRow) :
    ((drop_duplicates l).map (fun r => r.code)).Nodup := by
  induction l using drop_duplicates.induct with
  | case1 => simp [drop_duplicates]
  | case2 r rest ih =>
    rw [drop_duplicates]
    simp only [List.map_cons, List.nodup_cons]
    refine ⟨?_, ih⟩
    intro hmem
    rcases List.mem_map.mp hmem with ⟨y, hy, hcode⟩
    have hyf := (List.mem_filter.mp (mem_of_mem_drop_duplicates _ _ hy)).2
    rw [bne_iff_ne] at hyf
    exact hyf hcode

theorem find?_filter_of_imp (p q : PickRow → Bool) (l : List PickRow)
    (h : ∀ x, p x = true → q x = true) : (l.filter q).find? p = l.find? p := by
  induction l with
  | nil => rfl
  | cons a t ih =>
    rw [List.filter_cons]
    by_cases hq : q a = true
    · rw [if_pos hq]
      by_cases hp : p a = true
      · rw [List.find?_cons_of_pos _ hp, List.find?_cons_of_pos _ hp]
      · rw [List.find?_cons_of_neg _ (by simpa using hp),
          List.find?_cons_of_neg _ (by simpa using hp), ih]
    · have hp : ¬ p a = true := fun hpa => hq (h a hpa)
      rw [if_neg hq, List.find?_cons_of_neg _ (by simpa using hp), ih]

theorem mem_drop_duplicates_iff (l : List PickRow) (x : PickRow) :
    x ∈ drop_duplicates l ↔ l.find? (fun y => y.code == x.code) = some x := by
  induction l using drop_duplicates.induct with
  | case1 => simp [drop_duplicates]
  | case2 r rest ih =>
    rw [drop_duplicates]
    by_cases hc : r.code = x.code
    · have hpr : (fun y => y.code == x.code) r = true := by simp [hc]
      have hfind : List.find? (fun y : PickRow => y.code == x.code) (r :: rest) = some r :=
        List.find?_cons_of_pos rest hpr
      rw [hfind]
      constructor
      · intro h
        rcases List.mem_cons.mp h with h | h
        · rw [h]
        · exfalso
          have hxf := (List.mem_filter.mp (mem_of_mem_drop_duplicates _ _ h)).2
          rw [bne_iff_ne] at hxf
          exact hxf hc.symm
      · intro h
        exact (Option.some.inj h) ▸ List.mem_cons_self _ _
    · have hpr : ¬ ((fun y => y.code == x.code) r = true) := by simp [hc]
      have hfind : List.find? (fun y : PickRow => y.code == x.code) (r :: rest) =
          List.find? (fun y : PickRow => y.code == x.code) rest :=
        List.find?_cons_of_neg rest (by simpa using hpr)
      rw [hfind]
      rw [← find?_filter_of_imp (fun y => y.code == x.code) (fun y => y.code != r.code) rest ?imp]
      case imp =>
        intro y hy
        simp only [beq_iff_eq] at hy
        rw [bne_iff_ne, hy]
        exact fun hxr => hc hxr.symm
      constructor
      · intro h
        rcases List.mem_cons.mp h with h | h
        · exact absurd (by rw [h] : r.code = x.code) hc
        · exact ih.mp h
      · intro h
        exact List.mem_cons_of_mem _ (ih.mpr h)

/-- C9: the `__main__` post-processing (drop_duplicates on 代码, then
sort_values on 总分 descending) emits each code exactly once — the row kept is
deterministically the first occurrence in the raw result list — in an order
that is non-increasing by total score. -/
theorem portfolio_dedup_sort_spec (l : List PickRow) :
    ((main_postprocess l).map (fun r => r.code)).Nodup ∧
    (∀ r : PickRow, r ∈ main_postprocess l ↔ l.find? (fun y => y.code == r.code) = some r) ∧
    (∀ c : String, c ∈ l.map (fun r => r.code) → c ∈ (main_postprocess l).map (fun r => r.code)) ∧
    List.Pairwise (fun a b : PickRow => b.score ≤ a.score) (main_postprocess l) := by
  have hperm : List.Perm (main_postprocess l) (drop_duplicates l) := List.perm_insertionSort _ _
  refine ⟨?_, ?_, ?_, ?_⟩
  · exact ((hperm.map (fun r => r.code)).nodup_iff).mpr (drop_duplicates_codes_nodup l)
  · intro r
    rw [hperm.mem_iff]
    exact mem_drop_duplicates_iff l r
  · intro c hc
    rcases List.mem_map.mp hc with ⟨r0, hr0, rfl⟩
    have hsome : (l.find? (fun y => y.code == r0.code)).isSome := by
      rw [List.find?_isSome]
      exact ⟨r0, hr0, by simp⟩
    rcases Option.isSome_iff_exists.mp hsome with ⟨rf, hrf⟩
    have hcode : rf.code = r0.code := by
      have := List.find?_some hrf
      simpa using this
    have hmem : rf ∈ main_postprocess l := by
      rw [hperm.mem_iff, mem_drop_duplicates_iff]
      rw [show (fun y : PickRow => y.code == rf.code) = (fun y : PickRow => y.code == r0.code) by
        funext y
        rw [hcode]]
      exact hrf
    exact List.mem_map.mpr ⟨rf, hmem, hcode⟩
  · exact List.sorted_insertionSort scoreDescRel (drop_duplicates l)

unseal Rat.mul Rat.inv Rat.add Rat.sub Nat.gcd in
/-- Witness for C9 on a list with a duplicated code: the duplicated code is
still present in the output (with the first-seen row). -/
theorem portfolio_dedup_sort_witness :
    "000001" ∈ (main_postprocess demoRows).map (fun r => r.code) :=
  (portfolio_dedup_sort_spec demoRows).2.2.1 "000001" (by decide)

/-- C10 counterexample: a failure of the up-trend loader is NOT isolated —
`load_up_trend_stocks` has no exception handler, so even with every other
loader healthy, `load_filter_lists` propagates the exception and the run
aborts instead of producing a (possibly empty) universe. -/
theorem load_filter_lists_uptrend_abort :
    load_filter_lists (.error ()) (.ok ["000001"]) (.ok []) [] []
      (fun _ => none) 20000 (fun _ => none) = .error () := rfl

/-- C10 amended: every reference-set loader except the up-trend breakout list
is independently fault-tolerant — a raising ST list, suspension list, new-high
list, fund-flow cache or falling-volume-and-price blacklist leaves that
structure empty and `load_filter_lists` still completes; but an up-trend
loader failure propagates out of `load_filter_lists` and aborts the run (see
the counterexample). -/
theorem loader_fault_tolerance_spec :
    init_half_year_high (.error ()) = [] ∧
    init_fund_flow_cache (.error ()) = [] ∧
    load_ljqd_blacklist [] 3 (.error ()) = [] ∧
    (∀ (up : List String) (stRes suspRes : Except Unit (List String))
        (hy lj : List String) (q : String → Option Quote) (mf : ℚ)
        (io : String → Option String),
      ∃ out, load_filter_lists (.ok up) stRes suspRes hy lj q mf io = .ok out) ∧
    (∀ (up hy lj : List String) (q : String → Option Quote) (mf : ℚ)
        (io : String → Option String),
      load_filter_lists (.ok up) (.error ()) (.error ()) hy lj q mf io =
        load_filter_lists (.ok up) (.ok []) (.ok []) hy lj q mf io) := by
  refine ⟨rfl, rfl, rfl, ?_, ?_⟩
  · intro up stRes suspRes hy lj q mf io
    exact ⟨_, rfl⟩
  · intro up hy lj q mf io
    rfl
